import Mathlib

/-!
Shallow embedding of the SDS_Inventory warehouse backend's column-mapping,
ingestion-filtering and zone-capacity aggregation logic
(src/server/column_mapping.py, src/server/sheets.py, src/server/ingest_new.py,
src/server/ingest.py, src/server/zone_capacity.py), with theorems settling the
specification claims about them.

Modelling conventions:
* Python cell/field values are `PVal` (None, str, float); floats are modelled
  as exact rationals (`Rat`), since every float literal the pipeline handles
  round-trips through its decimal representation.
* Python dicts are insertion-ordered association lists with unique keys;
  `rowGet`/`rowSet` mirror `dict.get`/item assignment (updates keep the key's
  position, new keys append).
* A dict field that may be absent is an `Option`; where the code reads it with
  `dict.get(key, default)` the embedding applies the default to `none`.
  A JSON `null` stored under a present key is modelled separately only where
  the code distinguishes it (component `max_capacity`).
* Exceptions are `Except`: `Except.error` is a raised exception, and a
  Python `try/except` that re-raises is the identity on `Except`.
-/

namespace SDS

/-- A Python value as it appears in a sheet cell or mapped record. -/
inductive PVal where
  | none : PVal
  | str : String → PVal
  | num : Rat → PVal
deriving DecidableEq

/-- Python truthiness for the values above (None, "" and 0 are falsy). -/
def PVal.truthy : PVal → Bool
  | .none => false
  | .str s => s ≠ ""
  | .num q => q ≠ 0

/-- Best-effort model of Python `str(value)`.  Integral floats render with a
trailing ".0" as Python does; non-integral rationals are rendered as
fractions, an approximation that no claim depends on (only string cells reach
`str` in the claims below). -/
def ratStr (q : Rat) : String :=
  if q.den = 1 then toString q.num ++ ".0" else toString q

/-- Python `str(value)` for a `PVal`. -/
def PVal.pyStr : PVal → String
  | .none => "None"
  | .str s => s
  | .num q => ratStr q

/-- Python's whitespace test used by `str.strip()`. -/
def isSpaceChar (c : Char) : Bool :=
  c = ' ' ∨ c = '\t' ∨ c = '\n' ∨ c = '\r' ∨ c = '\x0b' ∨ c = '\x0c'

/-- Python `s.strip()`. -/
def pyStrip (s : String) : String :=
  String.mk (((s.data.dropWhile isSpaceChar).reverse.dropWhile isSpaceChar).reverse)

/-- Python `s.lower()` (ASCII, which is all the pipeline's headers use). -/
def pyLower (s : String) : String := String.mk (s.data.map Char.toLower)

/-- Python `s.upper()`. -/
def pyUpper (s : String) : String := String.mk (s.data.map Char.toUpper)

/-- Python `s.replace(',', '')`. -/
def replaceCommas (s : String) : String :=
  String.mk (s.data.filter (fun c => c ≠ ','))

/-- A Python dict (insertion-ordered association list). -/
abbrev Row := List (String × PVal)

/-- `d[k]` / `d.get(k)` lookup: first matching key. -/
def rowGet (r : Row) (k : String) : Option PVal :=
  (r.find? (fun p => p.1 = k)).map (fun p => p.2)

/-- `d.get(k, default)`. -/
def rowGetD (r : Row) (k : String) (d : PVal) : PVal :=
  (rowGet r k).getD d

/-- `k in d`. -/
def rowHas (r : Row) (k : String) : Bool :=
  r.any (fun p => p.1 = k)

/-- `d[k] = v`: update in place if the key exists (keys are unique in a
Python dict), else append. -/
def rowSet : Row → String → PVal → Row
  | [], k, v => [(k, v)]
  | p :: rest, k, v =>
    if p.1 = k then (k, v) :: rest else p :: rowSet rest k v

/-! ### Python `float()` on decimal literals

`pyFloat` models `float(s)` for finite decimal literals: optional surrounding
whitespace, an optional sign, digits with an optional fractional part and an
optional exponent.  (Python additionally accepts `inf`/`nan`/underscore
separators; none of the specified behavior involves those.)  Results are exact
rationals. -/

def digitVal (c : Char) : Option Nat :=
  if '0' ≤ c ∧ c ≤ '9' then some (c.toNat - 48) else none

def takeDigits : List Char → List Nat × List Char
  | [] => ([], [])
  | c :: rest =>
    match digitVal c with
    | some d =>
      let p := takeDigits rest
      (d :: p.1, p.2)
    | none => ([], c :: rest)

def digitsToNat (ds : List Nat) : Nat :=
  ds.foldl (fun a d => a * 10 + d) 0

def ratPow10 (e : Int) : Rat :=
  if 0 ≤ e then (10 : Rat) ^ e.toNat else 1 / (10 : Rat) ^ (-e).toNat

def parseExpDigits (cs : List Char) (sign : Int) : Option Int :=
  let p := takeDigits cs
  if p.1 = [] ∨ p.2 ≠ [] then none else some (sign * (digitsToNat p.1 : Int))

/-- Parse the tail after the mantissa: either nothing or an exponent part. -/
def parseExpTail : List Char → Option Int
  | [] => some 0
  | c :: rest =>
    if c = 'e' ∨ c = 'E' then
      match rest with
      | '+' :: r2 => parseExpDigits r2 1
      | '-' :: r2 => parseExpDigits r2 (-1)
      | r2 => parseExpDigits r2 1
    else none

def parseUnsigned (cs : List Char) : Option Rat :=
  let ip := takeDigits cs
  match ip.2 with
  | '.' :: r2 =>
    let fp := takeDigits r2
    if ip.1 = [] ∧ fp.1 = [] then none
    else
      (parseExpTail fp.2).map (fun e =>
        ((digitsToNat ip.1 : Rat) +
          (digitsToNat fp.1 : Rat) / ((10 : Rat) ^ fp.1.length)) * ratPow10 e)
  | rest =>
    if ip.1 = [] then none
    else (parseExpTail rest).map (fun e => (digitsToNat ip.1 : Rat) * ratPow10 e)

/-- Python `float(s)` on a string (None on ValueError). -/
def pyFloat (s : String) : Option Rat :=
  let t := pyStrip s
  match t.data with
  | '+' :: rest => parseUnsigned rest
  | '-' :: rest => (parseUnsigned rest).map (fun q => -q)
  | cs => parseUnsigned cs

/-! ### column_mapping.py -/

/-- column_mapping.WMS_COLUMN_MAP (Google Sheet header → PostgreSQL column). -/
def WMS_COLUMN_MAP : List (String × String) := [
  ("Item Code", "item_code"),
  ("Cell No.", "cell_no"),
  ("Production Lot No.", "production_lot_no"),
  ("Tot. Qty.", "tot_qty"),
  ("Inb. Date", "inb_date"),
  ("Valid Date", "valid_date"),
  ("ULD ID", "uld_id"),
  ("Source No.", "source_no"),
  ("Lot Attr. 5", "lot_attr_5"),
  ("Lot Attr. 6", "lot_attr_6"),
  ("Item Tcd", "item_tcd"),
  ("Item Gcd", "item_gcd"),
  ("Item Gcd Nm", "item_gcd_nm"),
  ("Item Status", "item_status"),
  ("Zone Cd", "zone_cd"),
  ("Exchg. Avlb. Qty", "exchg_avlb_qty"),
  ("Exchg. Tot. Qty.", "exchg_tot_qty"),
  ("Available Qty.", "available_qty"),
  ("Unit", "unit"),
  ("Exchg. Unit", "exchg_unit"),
  ("Prod. Date", "prod_date"),
  ("Volume", "volume"),
  ("Weight", "weight"),
  ("Amount", "amount"),
  ("Storer Nm", "storer_nm"),
  ("Alt. Code", "alt_code"),
  ("Comment", "comment"),
  ("Lot Attr. 1", "lot_attr_1"),
  ("Lot Attr. 2", "lot_attr_2"),
  ("Lot Attr. 3", "lot_attr_3"),
  ("Lot Attr. 4", "lot_attr_4"),
  ("W/H Item Type", "wh_item_type"),
  ("Item User Col3", "item_user_col3"),
  ("Item User Col4", "item_user_col4"),
  ("Item User Col5", "item_user_col5"),
  ("Desc", "description"),
  ("Lot No.", "lot_no"),
  ("Item Nm", "item_nm"),
  ("Supplier Code", "supplier_code"),
  ("BOE No.", "boe_no")]

/-- column_mapping.SAP_COLUMN_MAP. -/
def SAP_COLUMN_MAP : List (String × String) := [
  ("Plant", "plant"),
  ("Storage location", "storage_location"),
  ("Material", "material"),
  ("Material Description", "material_description"),
  ("Batch", "batch"),
  ("Stock Segment", "stock_segment"),
  ("Unrestricted", "unrestricted_qty"),
  ("Quality Inspection", "quality_inspection_qty"),
  ("Blocked", "blocked_qty"),
  ("Returns", "returns_qty"),
  ("Transit and Transfer", "transit_and_transfer"),
  ("Base Unit of Measure", "base_unit_of_measure"),
  ("Value Unrestricted", "value_unrestricted"),
  ("Currency", "currency"),
  ("Stock in Transit", "stock_in_transit"),
  ("Name 1", "name_1"),
  ("Material type", "material_type"),
  ("Material Group", "material_group"),
  ("DF stor. loc. level", "df_stor_loc_level"),
  ("Restricted-Use Stock", "restricted_use_stock"),
  ("Valuated Goods Receipt Blocked Stock", "valuated_goods_receipt_blocked_stock"),
  ("Tied Empties", "tied_empties"),
  ("In transfer (plant)", "in_transfer_plant"),
  ("Val. in Trans./Tfr", "val_in_trans_tfr"),
  ("Value Restricted", "value_restricted"),
  ("Val. GR Blocked St.", "val_gr_blocked_st"),
  ("Value in QualInsp.", "value_in_qualinsp"),
  ("Val. Tied Empties", "val_tied_empties"),
  ("Value BlockedStock", "value_blockedstock"),
  ("Value Rets Blocked", "value_rets_blocked"),
  ("Value in Transit", "value_in_transit"),
  ("Value in Stock Tfr", "value_in_stock_tfr")]

/-- column_mapping.WMS_NUMERIC_COLUMNS. -/
def WMS_NUMERIC_COLUMNS : List String :=
  ["tot_qty", "exchg_avlb_qty", "exchg_tot_qty", "available_qty",
   "volume", "weight", "amount"]

/-- column_mapping.SAP_NUMERIC_COLUMNS. -/
def SAP_NUMERIC_COLUMNS : List String :=
  ["unrestricted_qty", "quality_inspection_qty", "blocked_qty", "returns_qty",
   "transit_and_transfer", "value_unrestricted", "stock_in_transit",
   "restricted_use_stock", "valuated_goods_receipt_blocked_stock",
   "tied_empties", "in_transfer_plant", "val_in_trans_tfr",
   "value_restricted", "val_gr_blocked_st", "value_in_qualinsp",
   "val_tied_empties", "value_blockedstock", "value_rets_blocked",
   "value_in_transit", "value_in_stock_tfr"]

/-- column_mapping.clean_numeric_value.  A `num` input round-trips through
Python's `str`/`float` and is returned unchanged. -/
def clean_numeric_value : PVal → Option Rat
  | .none => none
  | .str s =>
    if s = "" then none
    else
      let value_str := pyStrip s
      if value_str = "" then none
      else pyFloat (replaceCommas value_str)
  | .num q => some q

def isKeepChar (c : Char) : Bool :=
  ('a' ≤ c ∧ c ≤ 'z') ∨ ('0' ≤ c ∧ c ≤ '9') ∨ c = '_'

/-- `re.sub(r'__+', '_', name)`: collapse runs of underscores (the flag says
whether the previous kept character was an underscore). -/
def collapseAux : Bool → List Char → List Char
  | _, [] => []
  | prevUnd, c :: rest =>
    if c = '_' then
      if prevUnd then collapseAux true rest
      else '_' :: collapseAux true rest
    else c :: collapseAux false rest

def collapseUnderscores (cs : List Char) : List Char :=
  collapseAux false cs

/-- column_mapping.normalize_column_name. -/
def normalize_column_name (header : String) : String :=
  let cs := header.data.map Char.toLower
  let cs := cs.map (fun c => if c = ' ' ∨ c = '/' then '_' else c)
  let cs := cs.filter (fun c => c ≠ '.')
  let cs := cs.filter (fun c => c ≠ '(' ∧ c ≠ ')')
  let cs := cs.filter isKeepChar
  let cs := cs.dropWhile (fun c => c = '_')
  let cs := (cs.reverse.dropWhile (fun c => c = '_')).reverse
  String.mk (collapseUnderscores cs)

/-- models_extended.ClassificationConfig (all roles optional, as in Pydantic). -/
structure ClassificationConfig where
  item_col : Option String := none
  lot_col : Option String := none
  qty_col : Option String := none
  zone_col : Option String := none
  location_col : Option String := none
  split_enabled : Bool := false
  split_by_column : Option String := none
  source_location_col : Option String := none
  unrestricted_col : Option String := none
  quality_inspection_col : Option String := none
  blocked_col : Option String := none
  returns_col : Option String := none
deriving DecidableEq

/-- Truthiness of an optional string attribute (`None` and `""` are falsy). -/
def pyOptTruthy : Option String → Bool
  | none => false
  | some s => s ≠ ""

/-- The `find_column_by_name` helper of map_wms_row / map_sap_row: exact key
match first, then the first case-insensitive trimmed match, in key order. -/
def find_column_by_name (sheet_row : Row) (target_name : Option String) :
    Option String :=
  match target_name with
  | none => none
  | some t =>
    if t = "" then none
    else if rowHas sheet_row t then some t
    else
      let target_lower := pyStrip (pyLower t)
      (sheet_row.find? (fun p => pyStrip (pyLower p.1) = target_lower)).map
        (fun p => p.1)

/-- Store an `Option Rat` numeric-cleaning result back into a dict value. -/
def optRatToPVal : Option Rat → PVal
  | none => .none
  | some q => .num q

/-- The classification pass of map_wms_row (zone, location, lot, item and
quantity roles, in source order; the location role always writes `cell_no`). -/
def wmsClassPass (sheet_row : Row) (c : ClassificationConfig) : Row :=
  let m : Row := []
  let m := match find_column_by_name sheet_row c.zone_col with
    | some zc => rowSet m (normalize_column_name zc) (rowGetD sheet_row zc .none)
    | none => m
  let m := match find_column_by_name sheet_row c.location_col with
    | some lc => rowSet m "cell_no" (rowGetD sheet_row lc .none)
    | none => m
  let m := match find_column_by_name sheet_row c.lot_col with
    | some lc => rowSet m (normalize_column_name lc) (rowGetD sheet_row lc .none)
    | none => m
  let m := match find_column_by_name sheet_row c.item_col with
    | some ic => rowSet m (normalize_column_name ic) (rowGetD sheet_row ic .none)
    | none => m
  let m := match find_column_by_name sheet_row c.qty_col with
    | some qc =>
      rowSet m (normalize_column_name qc)
        (optRatToPVal (clean_numeric_value (rowGetD sheet_row qc .none)))
    | none => m
  m

/-- The `mapped_columns` skip list map_wms_row rebuilds before each dictionary
step: the found zone, lot, item and quantity columns.  The source does NOT add
the location column here (its comment says location data is stored as cell_no,
but the column is never appended). -/
def wmsSkipCols (sheet_row : Row) (cl : Option ClassificationConfig) :
    List String :=
  match cl with
  | none => []
  | some c =>
    (match find_column_by_name sheet_row c.zone_col with
      | some z => [z] | none => []) ++
    (match find_column_by_name sheet_row c.lot_col with
      | some z => [z] | none => []) ++
    (match find_column_by_name sheet_row c.item_col with
      | some z => [z] | none => []) ++
    (match find_column_by_name sheet_row c.qty_col with
      | some z => [z] | none => [])

/-- One write performed by the static-dictionary pass: the sheet header it
consumed, the PostgreSQL column it wrote, and the value written. -/
structure DictWrite where
  header : String
  pg_column : String
  value : PVal
deriving DecidableEq

/-- The static-dictionary pass shared by both mappers, as the ordered list of
writes it performs: headers in the skip list are `continue`d, headers outside
the dictionary are silently dropped, numeric columns are cleaned. -/
def dictPassWrites (tbl : List (String × String)) (numeric : List String)
    (skip : List String) (sheet_row : Row) : List DictWrite :=
  sheet_row.filterMap (fun p =>
    if p.1 ∈ skip then none
    else
      match (tbl.find? (fun q => q.1 = p.1)).map (fun q => q.2) with
      | some pg =>
        some ⟨p.1, pg,
          if pg ∈ numeric then optRatToPVal (clean_numeric_value p.2)
          else p.2⟩
      | none => none)

/-- The static-dictionary pass of map_wms_row. -/
def wmsDictWrites (sheet_row : Row) (cl : Option ClassificationConfig) :
    List DictWrite :=
  dictPassWrites WMS_COLUMN_MAP WMS_NUMERIC_COLUMNS (wmsSkipCols sheet_row cl)
    sheet_row

/-- column_mapping.map_wms_row: classification pass, then the dictionary pass
applied over the sheet row in order. -/
def map_wms_row (sheet_row : Row) (cl : Option ClassificationConfig) : Row :=
  let base := match cl with
    | some c => wmsClassPass sheet_row c
    | none => []
  (wmsDictWrites sheet_row cl).foldl (fun m w => rowSet m w.pg_column w.value) base

/-- The classification pass of map_sap_row, in source order: zone, location
(→ storage_location), lot (→ batch), item (→ material), quantity
(→ unrestricted_qty, cleaned), then blocked / returns / quality-inspection /
source-location (→ storage_location, overriding) / unrestricted. -/
def sapClassPass (sheet_row : Row) (c : ClassificationConfig) : Row :=
  let m : Row := []
  let m := match find_column_by_name sheet_row c.zone_col with
    | some zc => rowSet m (normalize_column_name zc) (rowGetD sheet_row zc .none)
    | none => m
  let m := match find_column_by_name sheet_row c.location_col with
    | some lc => rowSet m "storage_location" (rowGetD sheet_row lc .none)
    | none => m
  let m := match find_column_by_name sheet_row c.lot_col with
    | some lc => rowSet m "batch" (rowGetD sheet_row lc .none)
    | none => m
  let m := match find_column_by_name sheet_row c.item_col with
    | some ic => rowSet m "material" (rowGetD sheet_row ic .none)
    | none => m
  let m := match find_column_by_name sheet_row c.qty_col with
    | some qc =>
      rowSet m "unrestricted_qty"
        (optRatToPVal (clean_numeric_value (rowGetD sheet_row qc .none)))
    | none => m
  let m := if pyOptTruthy c.blocked_col then
      match find_column_by_name sheet_row c.blocked_col with
      | some bc =>
        rowSet m "blocked_qty"
          (optRatToPVal (clean_numeric_value (rowGetD sheet_row bc .none)))
      | none => m
    else m
  let m := if pyOptTruthy c.returns_col then
      match find_column_by_name sheet_row c.returns_col with
      | some rc =>
        rowSet m "returns_qty"
          (optRatToPVal (clean_numeric_value (rowGetD sheet_row rc .none)))
      | none => m
    else m
  let m := if pyOptTruthy c.quality_inspection_col then
      match find_column_by_name sheet_row c.quality_inspection_col with
      | some qc =>
        rowSet m "quality_inspection_qty"
          (optRatToPVal (clean_numeric_value (rowGetD sheet_row qc .none)))
      | none => m
    else m
  let m := if pyOptTruthy c.source_location_col then
      match find_column_by_name sheet_row c.source_location_col with
      | some sc => rowSet m "storage_location" (rowGetD sheet_row sc .none)
      | none => m
    else m
  let m := if pyOptTruthy c.unrestricted_col then
      match find_column_by_name sheet_row c.unrestricted_col with
      | some uc =>
        rowSet m "unrestricted_qty"
          (optRatToPVal (clean_numeric_value (rowGetD sheet_row uc .none)))
      | none => m
    else m
  m

/-- The `mapped_columns` skip list map_sap_row rebuilds before each dictionary
step: all ten classification roles' found columns, including the location
role. -/
def sapSkipCols (sheet_row : Row) (cl : Option ClassificationConfig) :
    List String :=
  match cl with
  | none => []
  | some c =>
    (match find_column_by_name sheet_row c.zone_col with
      | some z => [z] | none => []) ++
    (match find_column_by_name sheet_row c.location_col with
      | some z => [z] | none => []) ++
    (match find_column_by_name sheet_row c.lot_col with
      | some z => [z] | none => []) ++
    (match find_column_by_name sheet_row c.item_col with
      | some z => [z] | none => []) ++
    (match find_column_by_name sheet_row c.qty_col with
      | some z => [z] | none => []) ++
    (if pyOptTruthy c.blocked_col then
      match find_column_by_name sheet_row c.blocked_col with
      | some z => [z] | none => []
     else []) ++
    (if pyOptTruthy c.returns_col then
      match find_column_by_name sheet_row c.returns_col with
      | some z => [z] | none => []
     else []) ++
    (if pyOptTruthy c.quality_inspection_col then
      match find_column_by_name sheet_row c.quality_inspection_col with
      | some z => [z] | none => []
     else []) ++
    (if pyOptTruthy c.source_location_col then
      match find_column_by_name sheet_row c.source_location_col with
      | some z => [z] | none => []
     else []) ++
    (if pyOptTruthy c.unrestricted_col then
      match find_column_by_name sheet_row c.unrestricted_col with
      | some z => [z] | none => []
     else [])

/-- The static-dictionary pass of map_sap_row. -/
def sapDictWrites (sheet_row : Row) (cl : Option ClassificationConfig) :
    List DictWrite :=
  dictPassWrites SAP_COLUMN_MAP SAP_NUMERIC_COLUMNS (sapSkipCols sheet_row cl)
    sheet_row

/-- column_mapping.map_sap_row. -/
def map_sap_row (sheet_row : Row) (cl : Option ClassificationConfig) : Row :=
  let base := match cl with
    | some c => sapClassPass sheet_row c
    | none => []
  (sapDictWrites sheet_row cl).foldl (fun m w => rowSet m w.pg_column w.value) base

/-- The headers consumed (resolved) by any classification role of map_wms_row,
including the location role. -/
def wmsClassConsumed (sheet_row : Row) (c : ClassificationConfig) :
    List String :=
  (match find_column_by_name sheet_row c.zone_col with
    | some z => [z] | none => []) ++
  (match find_column_by_name sheet_row c.location_col with
    | some z => [z] | none => []) ++
  (match find_column_by_name sheet_row c.lot_col with
    | some z => [z] | none => []) ++
  (match find_column_by_name sheet_row c.item_col with
    | some z => [z] | none => []) ++
  (match find_column_by_name sheet_row c.qty_col with
    | some z => [z] | none => [])

/-- Python `str(value).strip()`. -/
def pyStrTrim (v : PVal) : String := pyStrip v.pyStr

/-- column_mapping.get_split_key. -/
def get_split_key (mapped_row : Row) (c : ClassificationConfig) :
    Option String :=
  if ¬c.split_enabled ∨ ¬pyOptTruthy c.split_by_column then none
  else
    let split_col_normalized := normalize_column_name (c.split_by_column.getD "")
    let value := rowGetD mapped_row split_col_normalized .none
    if value.truthy then some (pyStrTrim value) else none

/-! ### sheets.py -/

/-- sheets.to_number. -/
def to_number : PVal → Option Rat
  | .none => none
  | .str s => if s = "" then none else pyFloat (replaceCommas s)
  | .num q => some q

/-! ### ingest_new.py — row preparation inside ingest_source -/

/-- Python `!=` on optional strings (None equals only None). -/
def optStrNe (a b : Option String) : Bool := a ≠ b

/-- One step of ingest_new.ingest_source's row loop (lines 234-294): map the
normalized row, look up `item_code or material` (the skip for falsy results is
disabled in the source — `# continue` is commented out under a
"TEMPORARILY DISABLE SKIP FOR DEBUGGING" note, and the placeholder item code
is assigned only to a local variable, not to the row), derive the split key,
apply the split filter, then stamp the bookkeeping fields.  Returns `none`
when the row is dropped by the split filter. -/
def ingestNewPrepareRow (source_type : String) (c : ClassificationConfig)
    (split_value : Option String) (source_id batch_id fetched_at : String)
    (norm_row : Row) : Option Row :=
  let mapped_row :=
    if source_type = "wms" then map_wms_row norm_row (some c)
    else map_sap_row norm_row (some c)
  let split_key := get_split_key mapped_row c
  if pyOptTruthy split_value ∧ optStrNe split_key split_value then none
  else
    let m := rowSet mapped_row "source_id" (.str source_id)
    let m := rowSet m "source_type" (.str source_type)
    let m := rowSet m "split_key"
      (match split_key with | none => .none | some s => .str s)
    let m := rowSet m "batch_id" (.str batch_id)
    let m := rowSet m "fetched_at" (.str fetched_at)
    some m

/-- ingest_new.ingest_source's `rows_to_insert` (the rows emitted for bulk
insertion in the non-dry-run path). -/
def ingestNewRowsToInsert (source_type : String) (c : ClassificationConfig)
    (split_value : Option String) (source_id batch_id fetched_at : String)
    (normalized_rows : List Row) : List Row :=
  normalized_rows.filterMap
    (ingestNewPrepareRow source_type c split_value source_id batch_id fetched_at)

/-- Whether a mapped row lacks a resolvable item/material code, exactly as
ingest_new tests it: `mapped_row.get('item_code') or mapped_row.get('material')`
is falsy. -/
def lacksItemCode (mapped_row : Row) : Bool :=
  ¬(rowGetD mapped_row "item_code" .none).truthy ∧
  ¬(rowGetD mapped_row "material" .none).truthy

/-! ### ingest.py — the older ingest_source (kept as fallback) -/

/-- `str(cell).strip() if cell else None`, then `value if value else None`. -/
def strippedOrNone (v : PVal) : Option String :=
  if v.truthy then
    let s := pyStrTrim v
    if s = "" then none else some s
  else none

/-- ingest.extract_denormalized_fields result. -/
structure Denorm where
  zone : Option String := none
  location : Option String := none
  item_code : Option String := none
  lot_key : Option String := none
  split_key : Option String := none
  source_location : Option String := none
deriving DecidableEq

/-- ingest.extract_denormalized_fields: role columns are matched by exact key
membership only. -/
def extract_denormalized_fields (row : Row) (source_type : String)
    (c : ClassificationConfig) : Denorm :=
  let d : Denorm := {}
  let d := match c.item_col with
    | some col =>
      if col ≠ "" ∧ rowHas row col then
        { d with item_code := strippedOrNone (rowGetD row col .none) }
      else d
    | none => d
  let d := match c.lot_col with
    | some col =>
      if col ≠ "" ∧ rowHas row col then
        { d with lot_key := strippedOrNone (rowGetD row col .none) }
      else d
    | none => d
  let d :=
    if c.split_enabled ∧ pyOptTruthy c.split_by_column then
      match c.split_by_column with
      | some col =>
        if rowHas row col then
          { d with split_key := strippedOrNone (rowGetD row col .none) }
        else d
      | none => d
    else d
  if source_type = "wms" then
    let d := match c.zone_col with
      | some col =>
        if col ≠ "" ∧ rowHas row col then
          { d with zone := strippedOrNone (rowGetD row col .none) }
        else d
      | none => d
    match c.location_col with
    | some col =>
      if col ≠ "" ∧ rowHas row col then
        { d with location := strippedOrNone (rowGetD row col .none) }
      else d
    | none => d
  else if source_type = "sap" then
    match c.source_location_col with
    | some col =>
      if col ≠ "" ∧ rowHas row col then
        { d with source_location := strippedOrNone (rowGetD row col .none) }
      else d
    | none => d
  else d

/-- ingest.ingest_source's row loop (lines 181-221) restricted to which rows
are kept: rows with a falsy extracted item_code are dropped
(`if not denorm['item_code']: continue`), then the split filter applies. -/
def ingestOldKept (source_type : String) (c : ClassificationConfig)
    (split_value : Option String) (normalized_rows : List Row) : List Row :=
  normalized_rows.filter (fun norm_row =>
    let denorm := extract_denormalized_fields norm_row source_type c
    if ¬pyOptTruthy denorm.item_code then false
    else ¬(pyOptTruthy split_value ∧ optStrNe denorm.split_key split_value))

/-! ### zone_capacity.py — cached display projection

The display block (zone_capacity.py lines 261-318, duplicated verbatim at
lines 662-719 of the authoritative path) computes total items, unique SKUs,
lot distribution and materials summary over a zone's collected material
dicts. -/

/-- One pre-matched material entry (`item.copy()` dicts built by the
authoritative path, or arbitrary pre-mapped dicts in the fast path).  A
`none` field models an absent dict key, to which the code's `.get` defaults
apply. -/
structure Material where
  item_code : Option String := none
  lot_key : Option String := none
  quantity : Option Rat := none
  source_id : Option String := none
  split_key : Option String := none
  location : Option String := none
deriving DecidableEq

/-- `mat.get('lot_key') or 'NO_LOT'`: an absent, None or empty lot key falls
into the `'NO_LOT'` bucket. -/
def effLotKey (m : Material) : String :=
  match m.lot_key with
  | none => "NO_LOT"
  | some s => if s = "" then "NO_LOT" else s

/-- `mat.get('quantity', 1)`. -/
def matQty (m : Material) : Rat := m.quantity.getD 1

/-- `mat.get('item_code', '')`. -/
def matItem (m : Material) : String := m.item_code.getD ""

/-- `counts[k] = counts.get(k, 0) + q` on an insertion-ordered dict: the (at
most one) entry with the key is bumped in place, a new key appends. -/
def bumpCount : List (String × Rat) → String → Rat → List (String × Rat)
  | [], k, q => [(k, q)]
  | p :: rest, k, q =>
    if p.1 = k then (p.1, p.2 + q) :: rest else p :: bumpCount rest k q

/-- The `lot_counts` dict: lot bucket → summed `get('quantity', 1)`. -/
def lotCounts (ms : List Material) : List (String × Rat) :=
  ms.foldl (fun c m => bumpCount c (effLotKey m) (matQty m)) []

/-- Floor of a rational (the denominator is positive, so `Int.fdiv` floors). -/
def ratFloor (x : Rat) : Int := Int.fdiv x.num x.den

/-- Round-half-to-even to an integer, as Python's `round`. -/
def roundHalfEven (x : Rat) : Int :=
  let f := ratFloor x
  let r := x - (f : Rat)
  if r < 1 / 2 then f
  else if 1 / 2 < r then f + 1
  else if f % 2 = 0 then f else f + 1

/-- Python `round(x, 1)`, modelled exactly on rationals. -/
def round1 (x : Rat) : Rat := (roundHalfEven (x * 10) : Rat) / 10

/-- One `lot_distribution` entry (the `'NO_LOT'` bucket is reported with a
null lot key). -/
structure LotEntry where
  lot_key : Option String
  quantity : Rat
  percentage : Rat
deriving DecidableEq

/-- The unsorted `lot_distribution` list: `percentage` divides the bucket's
quantity by `total_items = len(zone_materials)` (the entry count). -/
def lotDistributionUnsorted (ms : List Material) : List LotEntry :=
  (lotCounts ms).map (fun p =>
    let percentage : Rat :=
      if 0 < ms.length then p.2 / (ms.length : Rat) * 100 else 0
    ⟨if p.1 = "NO_LOT" then none else some p.1, p.2, round1 percentage⟩)

/-- Descending-by-quantity order used by `lot_distribution.sort(...,
reverse=True)`. -/
def lotGE (a b : LotEntry) : Prop := b.quantity ≤ a.quantity

instance : DecidableRel lotGE := fun a b =>
  inferInstanceAs (Decidable (b.quantity ≤ a.quantity))

instance : IsTotal LotEntry lotGE :=
  ⟨fun a b => le_total b.quantity a.quantity⟩

instance : IsTrans LotEntry lotGE :=
  ⟨fun _ _ _ h1 h2 => le_trans h2 h1⟩

/-- The sorted `lot_distribution` (Python's sort is stable; so is insertion
sort with this strict-insertion order). -/
def lotDistribution (ms : List Material) : List LotEntry :=
  List.insertionSort lotGE (lotDistributionUnsorted ms)

/-- The `material_counts` dict: truthy item code → summed quantity. -/
def materialCounts (ms : List Material) : List (String × Rat) :=
  ms.foldl (fun c m =>
    if matItem m ≠ "" then bumpCount c (matItem m) (matQty m) else c) []

/-- `sets[k].add(lot)` over an item-code → lot-set dict (sets modelled as
insertion-ordered duplicate-free lists). -/
def addLot : List (String × List String) → String → String →
    List (String × List String)
  | [], k, lot => [(k, [lot])]
  | p :: rest, k, lot =>
    if p.1 = k then (p.1, if lot ∈ p.2 then p.2 else p.2 ++ [lot]) :: rest
    else p :: addLot rest k lot

/-- The `material_lots` dict. -/
def materialLots (ms : List Material) : List (String × List String) :=
  ms.foldl (fun c m =>
    if matItem m ≠ "" then addLot c (matItem m) (effLotKey m) else c) []

/-- One `materials_summary` entry. -/
structure SummaryEntry where
  item_code : String
  total_quantity : Rat
  lots : List String
deriving DecidableEq

/-- The unsorted `materials_summary`: per item code, the summed quantity and
the lot set with the `'NO_LOT'` sentinel removed. -/
def materialsSummaryUnsorted (ms : List Material) : List SummaryEntry :=
  (materialCounts ms).map (fun p =>
    let lots := (((materialLots ms).find? (fun q => q.1 = p.1)).map
      (fun q => q.2)).getD []
    ⟨p.1, p.2, lots.filter (fun l => l ≠ "NO_LOT")⟩)

/-- Descending-by-total-quantity order for `materials_summary`. -/
def sumGE (a b : SummaryEntry) : Prop := b.total_quantity ≤ a.total_quantity

instance : DecidableRel sumGE := fun a b =>
  inferInstanceAs (Decidable (b.total_quantity ≤ a.total_quantity))

instance : IsTotal SummaryEntry sumGE :=
  ⟨fun a b => le_total b.total_quantity a.total_quantity⟩

instance : IsTrans SummaryEntry sumGE :=
  ⟨fun _ _ _ h1 h2 => le_trans h2 h1⟩

/-- The sorted `materials_summary`. -/
def materialsSummary (ms : List Material) : List SummaryEntry :=
  List.insertionSort sumGE (materialsSummaryUnsorted ms)

/-- `len(set(mat.get('item_code') for mat in ms if mat.get('item_code')))`. -/
def uniqueSkus (ms : List Material) : Nat :=
  ((ms.filterMap (fun m =>
    if matItem m ≠ "" then some (matItem m) else none)).dedup).length

/-! ### zone_capacity.py — cached zone state and the three operations -/

/-- A component record as persisted in the zone-capacity cache file.
`max_capacity` distinguishes an absent key (`none`, racks never get the key)
from a stored JSON null (`some none`, a flat whose layout item had no
max_capacity); everywhere else `none` models an absent key. -/
structure Component where
  id : String := ""
  ctype : String := ""
  location : String := ""
  x : Int := 0
  y : Int := 0
  rotation : Int := 0
  w : Int := 0
  h : Int := 0
  rows : Int := 0
  cols : Int := 0
  floors : Option Int := none
  numbering : Option String := none
  order : Option String := none
  per_floor_locations : Option String := none
  floor_capacities : Option (List (Option Int)) := none
  max_capacity : Option (Option Int) := none
  materials : Option (List Material) := none
  current_stock : Option Nat := none
  utilization_percentage : Option Rat := none
deriving DecidableEq

/-- One `components_display` entry of the cached display data
(`comp_data.get('max_capacity')` with no default merges an absent key and a
stored null into None). -/
structure CompDisplay where
  id : String
  location : String
  ctype : String
  max_capacity : Option Int
  current_stock : Nat
  utilization_percentage : Rat
  materials : List Material
deriving DecidableEq

/-- The `cached_display_data` projection written per zone. -/
structure DisplayData where
  total_items : Nat
  unique_skus : Nat
  max_capacity : Int
  current_stock : Nat
  utilization_percentage : Rat
  lot_distribution : List LotEntry
  materials_summary : List SummaryEntry
  components : List CompDisplay
deriving DecidableEq

/-- One zone's record in the zone-capacity cache file.  A `none` field models
an absent JSON key (the `.get` defaults in the code apply to it). -/
structure ZoneEntry where
  zone_id : Option String := none
  zone_code : Option String := none
  zone_name : Option String := none
  max_capacity : Option Int := none
  item_count : Option Nat := none
  components : Option (List Component) := none
  grid : Option String := none
  last_updated : Option Nat := none
  current_stock : Option Nat := none
  utilization_percentage : Option Rat := none
  cached_display_data : Option DisplayData := none
  last_sync : Option Nat := none
deriving DecidableEq

/-- The zone-capacity cache file: zone id → ZoneEntry, insertion-ordered. -/
abbrev CacheData := List (String × ZoneEntry)

def cacheGet (d : CacheData) (k : String) : Option ZoneEntry :=
  (d.find? (fun p => p.1 = k)).map (fun p => p.2)

/-- `existing_data[zone_id] = entry`: update in place (keys are unique in a
Python dict), else append. -/
def cacheSet : CacheData → String → ZoneEntry → CacheData
  | [], k, e => [(k, e)]
  | p :: rest, k, e =>
    if p.1 = k then (k, e) :: rest else p :: cacheSet rest k e

/-- Exceptions raised inside the aggregator. -/
inductive ZErr where
  | typeError
  | saveError
  | nameError
deriving DecidableEq

/-- ZoneCapacityManager._save_capacities: on an IOError it prints and
re-raises; `saveOk` stands for whether the file write succeeds. -/
def saveCapacities (saveOk : Bool) (d : CacheData) : Except ZErr CacheData :=
  if saveOk then .ok d else .error .saveError

/-! #### calculate_zone_capacity and update_zone_capacities -/

/-- An `items` row of the zones query (layout item).  `max_capacity`,
`floors` etc. are `none` when the database column is null; the `.get`
defaults in the code treat an absent key the same way (both are falsy). -/
structure LayoutItem where
  id : String := ""
  itype : String := ""
  location : String := ""
  x : Int := 0
  y : Int := 0
  rotation : Option Int := none
  w : Int := 0
  h : Int := 0
  rows : Int := 0
  cols : Int := 0
  floors : Option Int := none
  numbering : Option String := none
  order_dir : Option String := none
  per_floor_locations : Option String := none
  floor_capacities : Option (List (Option Int)) := none
  max_capacity : Option Int := none
deriving DecidableEq

/-- One zone of the zones-with-items layout query. -/
structure ZoneRow where
  id : String
  code : String := ""
  name : Option String := none
  grid : Option String := none
  items : List LayoutItem := []
deriving DecidableEq

/-- The rack fallback `floors × rows × cols`, guarded by the code's
`if floors and rows and cols` truthiness check. -/
def rackFallback (item : LayoutItem) : Int :=
  if item.floors.getD 0 ≠ 0 ∧ item.rows ≠ 0 ∧ item.cols ≠ 0 then
    item.floors.getD 0 * item.rows * item.cols
  else 0

/-- The flat fallback `rows × cols`, guarded by `if rows and cols`. -/
def flatFallback (item : LayoutItem) : Int :=
  if item.rows ≠ 0 ∧ item.cols ≠ 0 then item.rows * item.cols else 0

/-- One layout item's contribution to `total_capacity` in
calculate_zone_capacity: racks use `sum(cap or 0 for cap in floor_capacities)`
when that list is truthy, flats use `max_capacity` when truthy and positive;
otherwise the geometric fallbacks. -/
def itemContribution (item : LayoutItem) : Int :=
  if item.itype = "rack" then
    match item.floor_capacities with
    | some fc =>
      if fc ≠ [] then fc.foldl (fun a c => a + c.getD 0) 0
      else rackFallback item
    | none => rackFallback item
  else if item.itype = "flat" then
    match item.max_capacity with
    | some v => if v ≠ 0 ∧ 0 < v then v else flatFallback item
    | none => flatFallback item
  else 0

/-- calculate_zone_capacity's result. -/
structure CapacityInfo where
  max_capacity : Int
  item_count : Nat
deriving DecidableEq

/-- ZoneCapacityManager.calculate_zone_capacity. -/
def calculate_zone_capacity (zone : ZoneRow) : CapacityInfo :=
  { max_capacity := zone.items.foldl (fun acc item => acc + itemContribution item) 0
    item_count := zone.items.length }

/-- The component dict update_zone_capacities persists for a layout item:
geometry plus rack-specific fields for racks, or a `max_capacity` key
(possibly null) for flats. -/
def buildComponent (item : LayoutItem) : Component :=
  let base : Component :=
    { id := item.id, ctype := item.itype, location := item.location,
      x := item.x, y := item.y, rotation := item.rotation.getD 0,
      w := item.w, h := item.h, rows := item.rows, cols := item.cols }
  if item.itype = "rack" then
    { base with
      floors := item.floors, numbering := item.numbering,
      order := item.order_dir, per_floor_locations := item.per_floor_locations,
      floor_capacities := item.floor_capacities }
  else { base with max_capacity := some item.max_capacity }

/-- The per-zone step of update_zone_capacities: `existing_data[zone_id]`
(or a fresh empty dict) has the layout/capacity keys rewritten via
`.update(...)`, then `current_stock`/`utilization_percentage` are initialised
to 0 only when `current_stock` is not already a key. -/
def uzcUpdateEntry (now : Nat) (zone : ZoneRow) (e : ZoneEntry) : ZoneEntry :=
  let capacity_info := calculate_zone_capacity zone
  let components := zone.items.map buildComponent
  let e1 := { e with
    zone_id := some zone.id,
    zone_code := some zone.code,
    zone_name := zone.name,
    max_capacity := some capacity_info.max_capacity,
    item_count := some capacity_info.item_count,
    components := some components,
    grid := zone.grid,
    last_updated := some now }
  if e1.current_stock = none then
    { e1 with current_stock := some 0, utilization_percentage := some 0 }
  else e1

/-- ZoneCapacityManager.update_zone_capacities: refresh every upstream zone's
entry, drop cached zones no longer upstream, then save (a failed save, like
any exception, is re-raised by the outer `except`). -/
def update_zone_capacities (zones : List ZoneRow) (now : Nat) (saveOk : Bool)
    (existing : CacheData) : Except ZErr CacheData :=
  let data := zones.foldl (fun d zone =>
    let e := (cacheGet d zone.id).getD {}
    cacheSet d zone.id (uzcUpdateEntry now zone e)) existing
  let updated_zones := zones.map (fun z => z.id)
  let data := data.filter (fun p => p.1 ∈ updated_zones)
  saveCapacities saveOk data

/-! #### update_current_quantities_fast -/

/-- `comp.get('max_capacity', 0)`: the int default for an absent key, the
stored value (possibly None) otherwise. -/
def compMaxCapGet (c : Component) : Option Int :=
  match c.max_capacity with
  | none => some 0
  | some v => v

/-- The per-component body of the fast path: current_stock is the length of
the pre-mapped materials list, and `comp_max_cap > 0` raises a TypeError when
the stored max_capacity is None (Python cannot order None and int). -/
def fastProcessComp (comp : Component) : Except ZErr Component :=
  let current_stock := (comp.materials.getD []).length
  let c1 := { comp with current_stock := some current_stock }
  match compMaxCapGet comp with
  | none => .error .typeError
  | some v =>
    if 0 < v then
      .ok { c1 with
            utilization_percentage :=
              some ((current_stock : Rat) / (v : Rat) * 100) }
    else .ok { c1 with utilization_percentage := some 0 }

def fastProcessComps : List Component → Except ZErr (List Component)
  | [] => .ok []
  | c :: cs =>
    match fastProcessComp c with
    | .error e => .error e
    | .ok c' =>
      match fastProcessComps cs with
      | .error e => .error e
      | .ok cs' => .ok (c' :: cs')

/-- `zone_materials`: the concatenation of the components' materials lists. -/
def zoneMaterials (comps : List Component) : List Material :=
  comps.foldl (fun acc c => acc ++ c.materials.getD []) []

/-- One `components_display` record. -/
def compDisplayOf (c : Component) : CompDisplay :=
  let comp_materials := c.materials.getD []
  { id := c.id, location := c.location, ctype := c.ctype,
    max_capacity := c.max_capacity.join,
    current_stock := comp_materials.length,
    utilization_percentage := c.utilization_percentage.getD 0,
    materials := comp_materials }

/-- The `cached_display_data` built for a zone (zone-level max/current/
utilization are read from the entry before the zone-level update). -/
def buildDisplayData (e : ZoneEntry) (comps : List Component) : DisplayData :=
  let ms := zoneMaterials comps
  { total_items := ms.length
    unique_skus := uniqueSkus ms
    max_capacity := e.max_capacity.getD 0
    current_stock := e.current_stock.getD 0
    utilization_percentage := e.utilization_percentage.getD 0
    lot_distribution := lotDistribution ms
    materials_summary := materialsSummary ms
    components := comps.map compDisplayOf }

/-- The per-zone body of update_current_quantities_fast: update each
component, rebuild the display projection, then the zone-level totals. -/
def fastProcessZone (now : Nat) (e : ZoneEntry) : Except ZErr ZoneEntry :=
  match fastProcessComps (e.components.getD []) with
  | .error err => .error err
  | .ok comps =>
  let zone_total_stock : Nat := comps.foldl (fun a c => a + c.current_stock.getD 0) 0
  let e1 := { e with components := some comps }
  let e2 := { e1 with cached_display_data := some (buildDisplayData e1 comps) }
  let e3 := { e2 with current_stock := some zone_total_stock }
  let max_cap : Int := e3.max_capacity.getD 0
  let e4 :=
    if 0 < max_cap then
      { e3 with
        utilization_percentage :=
          some ((zone_total_stock : Rat) / (max_cap : Rat) * 100) }
    else { e3 with utilization_percentage := some 0 }
  .ok { e4 with last_sync := some now }

def fastMapZones (now : Nat) : CacheData → Except ZErr CacheData
  | [] => .ok []
  | (k, e) :: rest =>
    match fastProcessZone now e with
    | .error err => .error err
    | .ok e' =>
      match fastMapZones now rest with
      | .error err => .error err
      | .ok rest' => .ok ((k, e') :: rest')

/-- ZoneCapacityManager.update_current_quantities_fast: process every cached
zone in memory, then save.  Its `except` clause re-raises, so any TypeError
from a null component capacity and any failed save propagate to the caller. -/
def update_current_quantities_fast (now : Nat) (saveOk : Bool)
    (existing : CacheData) : Except ZErr CacheData :=
  match fastMapZones now existing with
  | .error e => .error e
  | .ok updated => saveCapacities saveOk updated

/-! #### update_current_quantities (authoritative path) -/

/-- One `wms_raw_rows` row as selected by the authoritative path.  `location`
and `item_code` are modelled as strings because the code calls `.strip()` on
them unconditionally. -/
structure WmsRow where
  zone_cd : Option String := none
  zone : Option String := none
  location : String := ""
  item_code : String := ""
  split_key : Option String := none
  source_id : String := ""
  lot_key : Option String := none
  available_qty : Option Rat := none
  tot_qty : Option Rat := none
deriving DecidableEq

/-- The external stores the authoritative path queries. -/
structure WarehouseDB where
  warehouses : List (String × String)
  bindings : List (String × List (String × String))
  wms_rows : List WmsRow
deriving DecidableEq

/-- `key.split('::', 1)` when the key contains the separator. -/
def splitBindKey (key : String) : Option (String × String) :=
  match key.splitOn "::" with
  | s :: r :: rest => some (s, String.intercalate "::" (r :: rest))
  | _ => none

/-- The `warehouse_source_split_mapping` dict: for each requested warehouse
code, the (source_id, split_value) pairs of its wms-typed bindings whose keys
carry a `::` separator. -/
def buildWarehouseMapping (db : WarehouseDB) (warehouse_codes : List String) :
    List (String × List (String × String)) :=
  warehouse_codes.foldl (fun acc wh_code =>
    match (db.warehouses.find? (fun p => p.1 = wh_code)).map (fun p => p.2) with
    | none => acc
    | some wh_id =>
      match (db.bindings.find? (fun p => p.1 = wh_id)).map (fun p => p.2) with
      | none => acc
      | some source_bindings =>
        let pairs := source_bindings.filterMap (fun kb =>
          if kb.2 = "wms" then splitBindKey kb.1 else none)
        acc ++ [(wh_code, pairs)]) []

/-- `location_counts` / `location_items` accumulators. -/
structure LocAgg where
  location_counts : List (String × Rat) := []
  location_items : List (String × List Material) := []
deriving DecidableEq

def addLocItem (items : List (String × List Material)) (loc : String)
    (m : Material) : List (String × List Material) :=
  if items.any (fun p => p.1 = loc) then
    items.map (fun p => if p.1 = loc then (p.1, p.2 ++ [m]) else p)
  else items ++ [(loc, [m])]

/-- The matching loop of the authoritative path: a row is counted once per
(source id, split value) binding pair it matches, under every matching
warehouse.  `quantity` is `row.get('available_qty', row.get('tot_qty', 1))`
(a stored null collapses to the absent-key default here). -/
def ucqProcessRow (mapping : List (String × List (String × String)))
    (agg : LocAgg) (row : WmsRow) : LocAgg :=
  let location := pyUpper (pyStrip row.location)
  let item_code := pyStrip row.item_code
  let quantity := row.available_qty.getD (row.tot_qty.getD 1)
  mapping.foldl (fun a wh =>
    wh.2.foldl (fun a pair =>
      if row.source_id = pair.1 ∧ row.split_key = some pair.2 then
        if location ≠ "" then
          { location_counts := bumpCount a.location_counts location quantity,
            location_items := addLocItem a.location_items location
              { item_code := some item_code, lot_key := row.lot_key,
                quantity := some quantity, source_id := some row.source_id,
                split_key := row.split_key } }
        else a
      else a) a) agg

/-- ZoneCapacityManager.update_current_quantities (lines 339-739), with the
external queries supplied as data.  Its zone loop reads
`zone_data.get('layouts', [])`, but this module's own writer
(update_zone_capacities) stores a zone's components under the 'components'
key and never writes 'layouts'; for every cache state of that shape the
layouts list is empty, the inner component loops never run, and the loop then
evaluates `if comp_type == 'flat'` with the local `comp_type` never assigned —
a NameError on the first zone.  The surrounding `except Exception` (line 736,
"Don't raise - allow partial success") swallows every failure, including a
failed cache write, so the call always returns normally: `.ok (some d)`
reports a completed save, `.ok none` a swallowed exception. -/
def update_current_quantities (db : WarehouseDB)
    (warehouse_codes : List String) (saveOk : Bool) (existing : CacheData) :
    Except ZErr (Option CacheData) :=
  let mapping := buildWarehouseMapping db warehouse_codes
  let _agg := db.wms_rows.foldl (ucqProcessRow mapping) {}
  let body : Except ZErr CacheData :=
    match existing with
    | [] => saveCapacities saveOk existing
    | _ :: _ => .error .nameError
  match body with
  | .ok d => .ok (some d)
  | .error _ => .ok none

/-! ### Claim-side (spec-worded) definitions and concrete inputs -/

/-- C5's claimed per-component capacity, stated from the spec's words: racks
use the sum of `floor_capacities` when present and non-empty, else
`floors × rows × cols`; flats use `max_capacity` when present and positive,
else `rows × cols`. -/
def claimedItemCapacity (item : LayoutItem) : Int :=
  if item.itype = "rack" then
    match item.floor_capacities with
    | some fc =>
      if fc ≠ [] then fc.foldl (fun a c => a + c.getD 0) 0
      else item.floors.getD 0 * item.rows * item.cols
    | none => item.floors.getD 0 * item.rows * item.cols
  else
    match item.max_capacity with
    | some v => if 0 < v then v else item.rows * item.cols
    | none => item.rows * item.cols

/-- C3's claimed bucket quantity: summed quantity of the zone materials whose
effective lot key falls in the bucket. -/
def bucketQty (ms : List Material) (k : String) : Rat :=
  ((ms.filter (fun m => effLotKey m = k)).map matQty).sum

/-- The lot bucket a distribution entry reports (null is the NO_LOT bucket). -/
def entryBucket (e : LotEntry) : String := e.lot_key.getD "NO_LOT"

/-- The value a counting dict holds for a key (0 when the key is absent). -/
def countVal (acc : List (String × Rat)) (k : String) : Rat :=
  ((acc.find? (fun p => p.1 = k)).map (fun p => p.2)).getD 0

/-- C9's canonical form: lot keys the display code treats as "no lot"
(absent, empty, or the literal 'NO_LOT' sentinel) are replaced by `none`. -/
def canonMaterial (m : Material) : Material :=
  { m with lot_key :=
      match m.lot_key with
      | some s => if s = "" ∨ s = "NO_LOT" then none else some s
      | none => none }

/-- C1: a WMS sheet row carrying a location and a quantity but no item code. -/
def c1row : Row := [("Cell No.", PVal.str "Z-01"), ("Available Qty.", PVal.str "3")]

/-- C1: an empty classification (all roles unset, no split). -/
def c1cfg : ClassificationConfig := {}

/-- C2: a sheet row whose only header is also a WMS dictionary header. -/
def c2row : Row := [("Cell No.", PVal.str "A-1")]

/-- C2: a classification whose location role resolves that header. -/
def c2cfg : ClassificationConfig := { location_col := some "Cell No." }

/-- C3: one material with quantity 10. -/
def c3ms : List Material :=
  [{ item_code := some "A", lot_key := some "L", quantity := some 10 }]

/-- C7: split enabled on the Plant column. -/
def c7cfg : ClassificationConfig :=
  { split_enabled := true, split_by_column := some "Plant" }

/-- C7: a mapped row whose plant cell is whitespace-only. -/
def c7row : Row := [("plant", PVal.str " ")]

/-- C5/C10: a rack with floor capacities [10, 10, 5] and junk geometry. -/
def c5rack : LayoutItem :=
  { id := "r1", itype := "rack", location := "R1", floors := some 9, rows := 8,
    cols := 7, floor_capacities := some [some 10, some 10, some 5] }

/-- C5: a flat with max_capacity 0 and a 4 × 5 grid. -/
def c5flat : LayoutItem :=
  { id := "f1", itype := "flat", location := "F1", rows := 4, cols := 5,
    max_capacity := some 0 }

/-- C10: a flat layout item with no max_capacity. -/
def c10item : LayoutItem :=
  { id := "i1", itype := "flat", location := "F1", rows := 2, cols := 2 }

/-- C10: that item as persisted by update_zone_capacities. -/
def c10comp : Component := buildComponent c10item

/-- C10: a cache containing one zone holding that component. -/
def c10cache : CacheData := [("z1", { components := some [c10comp] })]

/-- C10: a component persisted with max_capacity 0. -/
def c10zeroComp : Component :=
  { id := "i2", ctype := "flat", location := "F2", max_capacity := some (some 0) }

/-- C6: an upstream zone. -/
def c6zone : ZoneRow := { id := "z1", code := "Z1" }

/-- C6: a cache with live-state fields on z1 and a stale zone z2. -/
def c6existing : CacheData :=
  [("z1", { current_stock := some 5, utilization_percentage := some 25 }),
   ("z2", { current_stock := some 3 })]

/-- C6: the z1 entry after the refresh (layout fields rewritten, live-state
fields kept). -/
def c6outEntry : ZoneEntry :=
  { zone_id := some "z1", zone_code := some "Z1", max_capacity := some 0,
    item_count := some 0, components := some [], last_updated := some 7,
    current_stock := some 5, utilization_percentage := some 25 }

/-- C6: the cache after the refresh (z2 removed). -/
def c6out : CacheData := [("z1", c6outEntry)]

/-- C4: empty external stores. -/
def emptyDb : WarehouseDB := { warehouses := [], bindings := [], wms_rows := [] }

/-- C9: materials carrying the sentinel, an empty and a genuine lot key. -/
def c9ms : List Material :=
  [{ item_code := some "A", lot_key := some "NO_LOT", quantity := some 2 },
   { item_code := some "A", lot_key := some "", quantity := some 3 },
   { item_code := some "B", lot_key := some "L1", quantity := some 4 }]

/-! ## Helper lemmas -/

theorem ratFloor_intCast (n : Int) : ratFloor (n : Rat) = n := by
  simp [ratFloor, Rat.num_intCast, Rat.den_intCast]

theorem roundHalfEven_intCast (n : Int) : roundHalfEven (n : Rat) = n := by
  simp [roundHalfEven, ratFloor_intCast]

/-- A Python truthiness guard on an integer triple product is redundant. -/
theorem truthyProd3 (a b c : Int) :
    (if a ≠ 0 ∧ b ≠ 0 ∧ c ≠ 0 then a * b * c else 0) = a * b * c := by
  by_cases ha : a = 0 <;> by_cases hb : b = 0 <;> by_cases hc : c = 0 <;>
    simp [ha, hb, hc]

theorem truthyProd2 (a b : Int) :
    (if a ≠ 0 ∧ b ≠ 0 then a * b else 0) = a * b := by
  by_cases ha : a = 0 <;> by_cases hb : b = 0 <;> simp [ha, hb]

theorem foldl_add_map (f : LayoutItem → Int) (l : List LayoutItem) :
    ∀ acc : Int, l.foldl (fun a i => a + f i) acc = acc + (l.map f).sum := by
  induction l with
  | nil => intro acc; simp
  | cons x xs ih => intro acc; simp [ih, add_assoc]

/-- A write of the dictionary pass never carries a skipped header. -/
theorem dictPassWrites_header_not_skipped (tbl : List (String × String))
    (numeric skip : List String) (sheet_row : Row) (w : DictWrite)
    (hw : w ∈ dictPassWrites tbl numeric skip sheet_row) : w.header ∉ skip := by
  obtain ⟨p, _, hp⟩ := List.mem_filterMap.mp hw
  by_cases hs : p.1 ∈ skip
  · simp [hs] at hp
  · simp only [hs, if_neg, if_false] at hp
    rcases hfind : (tbl.find? (fun q => q.1 = p.1)).map (fun q => q.2) with _ | pg
    · rw [hfind] at hp; simp at hp
    · rw [hfind] at hp
      simp only [Option.some.injEq] at hp
      rw [← hp]
      exact hs

/-- Per-item agreement between the code's capacity contribution and the
spec-worded one, for rack/flat items. -/
theorem itemContribution_eq_claimed (item : LayoutItem)
    (h : item.itype = "rack" ∨ item.itype = "flat") :
    itemContribution item = claimedItemCapacity item := by
  rcases h with h | h
  · simp only [itemContribution, claimedItemCapacity, h, if_pos rfl]
    rcases item.floor_capacities with _ | fc
    · exact truthyProd3 _ _ _
    · by_cases hfc : fc = []
      · simp [hfc, rackFallback, truthyProd3]
      · simp [hfc]
  · have hr : item.itype ≠ "rack" := by rw [h]; decide
    simp only [itemContribution, claimedItemCapacity, h, hr, if_neg, if_false,
      if_pos rfl]
    rcases item.max_capacity with _ | v
    · exact truthyProd2 _ _
    · by_cases hv : 0 < v
      · have : v ≠ 0 := by omega
        simp [hv, this]
      · have : ¬(v ≠ 0 ∧ 0 < v) := by tauto
        simp [hv, this, flatFallback, truthyProd2]

/-! ## Claim theorems -/

/-- C5 (confirmed): for every zone layout whose items are racks or flats,
calculate_zone_capacity returns as the zone's max_capacity the sum over its
components of the spec's formula — racks contribute the sum of
floor_capacities when present and non-empty, else floors × rows × cols; flats
contribute max_capacity when present and positive, else rows × cols.  In
particular the rack with floor_capacities [10, 10, 5] (and junk geometry)
contributes 25, and a flat with max_capacity 0, rows 4, cols 5 contributes
20. -/
theorem c5_zone_capacity_formula :
    (∀ zone : ZoneRow,
      (∀ item ∈ zone.items, item.itype = "rack" ∨ item.itype = "flat") →
      (calculate_zone_capacity zone).max_capacity =
        (zone.items.map claimedItemCapacity).sum) ∧
    itemContribution c5rack = 25 ∧ claimedItemCapacity c5rack = 25 ∧
    itemContribution c5flat = 20 ∧ claimedItemCapacity c5flat = 20 := by
  refine ⟨?_, rfl, rfl, rfl, rfl⟩
  intro zone h
  show zone.items.foldl (fun acc item => acc + itemContribution item) 0 = _
  rw [foldl_add_map]
  rw [zero_add]
  congr 1
  exact List.map_congr_left (fun item hi => itemContribution_eq_claimed item (h item hi))

/-- C5 witness: the formula theorem applied to a concrete two-item zone. -/
theorem c5_zone_capacity_formula_witness :
    (calculate_zone_capacity { id := "z", items := [c5rack, c5flat] }).max_capacity =
      ([c5rack, c5flat].map claimedItemCapacity).sum :=
  c5_zone_capacity_formula.1 { id := "z", items := [c5rack, c5flat] } (by decide)

/-- C7 counterexample: a whitespace-only split cell trims to the empty string,
yet get_split_key returns the non-null key `some ""` rather than null. -/
theorem c7_whitespace_split_value_yields_empty_key :
    get_split_key c7row c7cfg = some "" ∧ pyStrip " " = "" ∧
    some "" ≠ (none : Option String) := by
  refine ⟨rfl, rfl, by simp⟩

/-- C7 (corrected): get_split_key returns null when splitting is disabled or
no split column is named; otherwise, for a string-valued split cell `s`, it
returns null exactly when `s` is the empty string, and `some (pyStrip s)`
otherwise — so a whitespace-only cell yields the empty-string key, not
null. -/
theorem c7_get_split_key_amended :
    (∀ (row : Row) (c : ClassificationConfig),
      (c.split_enabled = false ∨ pyOptTruthy c.split_by_column = false) →
      get_split_key row c = none) ∧
    (∀ (row : Row) (c : ClassificationConfig) (s : String),
      c.split_enabled = true → pyOptTruthy c.split_by_column = true →
      rowGetD row (normalize_column_name (c.split_by_column.getD "")) .none =
        .str s →
      get_split_key row c = if s = "" then none else some (pyStrip s)) := by
  constructor
  · intro row c h
    rcases h with h | h <;> simp [get_split_key, h]
  · intro row c s he ht hv
    simp only [get_split_key, he, ht, hv, Bool.not_true, false_or]
    by_cases hs : s = ""
    · subst hs; simp [PVal.truthy]
    · simp [PVal.truthy, hs, pyStrTrim, PVal.pyStr]

/-- C7 witness: the amended theorem applied to the whitespace-only cell. -/
theorem c7_get_split_key_amended_witness :
    get_split_key c7row c7cfg =
      if (" " : String) = "" then none else some (pyStrip " ") :=
  c7_get_split_key_amended.2 c7row c7cfg " " rfl rfl rfl

/-- C8 (confirmed): both numeric cleaners strip thousands-separator commas and
parse the result as an exact decimal ("1,137.05" becomes 1137.05 = 22741/20),
and return null — never 0 — on None, the empty string, and any string whose
comma-stripped form fails to parse as a float. -/
theorem c8_numeric_cleaning :
    clean_numeric_value (PVal.str "1,137.05") = some (22741 / 20 : Rat) ∧
    to_number (PVal.str "1,137.05") = some (22741 / 20 : Rat) ∧
    clean_numeric_value PVal.none = none ∧
    clean_numeric_value (PVal.str "") = none ∧
    to_number PVal.none = none ∧
    to_number (PVal.str "") = none ∧
    (∀ s : String, pyFloat (replaceCommas (pyStrip s)) = none →
      clean_numeric_value (PVal.str s) = none) ∧
    (∀ s : String, pyFloat (replaceCommas s) = none →
      to_number (PVal.str s) = none) := by
  refine ⟨?_, ?_, rfl, rfl, rfl, rfl, ?_, ?_⟩
  · simp +decide [clean_numeric_value, pyStrip, replaceCommas, pyFloat,
      parseUnsigned, takeDigits, digitVal, parseExpTail, parseExpDigits,
      digitsToNat, ratPow10]
    norm_num
  · simp +decide [to_number, pyStrip, replaceCommas, pyFloat, parseUnsigned,
      takeDigits, digitVal, parseExpTail, parseExpDigits, digitsToNat, ratPow10]
    norm_num
  · intro s hs
    by_cases h0 : s = ""
    · simp [clean_numeric_value, h0]
    · by_cases h1 : pyStrip s = ""
      · simp [clean_numeric_value, h0, h1]
      · simp [clean_numeric_value, h0, h1, hs]
  · intro s hs
    by_cases h0 : s = ""
    · simp [to_number, h0]
    · simp [to_number, h0, hs]

/-- C8 witness: the unparseable-input conjuncts applied at "abc". -/
theorem c8_numeric_cleaning_witness :
    clean_numeric_value (PVal.str "abc") = none ∧
    to_number (PVal.str "abc") = none :=
  ⟨c8_numeric_cleaning.2.2.2.2.2.2.1 "abc" rfl,
   c8_numeric_cleaning.2.2.2.2.2.2.2 "abc" rfl⟩

/-- C2 counterexample: the header "Cell No." is consumed by map_wms_row's
location role (mapped to cell_no by classification), yet the dictionary pass
still writes the cell_no column for that header — it is not skipped. -/
theorem c2_location_header_rewritten_by_dictionary :
    "Cell No." ∈ wmsClassConsumed c2row c2cfg ∧
    rowGet (map_wms_row c2row (some c2cfg)) "cell_no" = some (PVal.str "A-1") ∧
    wmsDictWrites c2row (some c2cfg) =
      [⟨"Cell No.", "cell_no", PVal.str "A-1"⟩] := by
  refine ⟨by decide, rfl, rfl⟩

/-- C2 (corrected): the dictionary pass never writes a header in its skip
list; map_sap_row's skip list contains every classification-resolved column,
but map_wms_row's skip list omits the location-role column, which therefore
remains visible to the dictionary pass (see the counterexample). -/
theorem c2_classification_headers_suppressed :
    (∀ (row : Row) (c : ClassificationConfig) (h : String) (w : DictWrite),
      h ∈ wmsSkipCols row (some c) → w ∈ wmsDictWrites row (some c) →
      w.header ≠ h) ∧
    (∀ (row : Row) (c : ClassificationConfig) (h : String) (w : DictWrite),
      h ∈ sapSkipCols row (some c) → w ∈ sapDictWrites row (some c) →
      w.header ≠ h) := by
  constructor
  · intro row c h w hh hw he
    exact dictPassWrites_header_not_skipped _ _ _ _ _ hw (he ▸ hh)
  · intro row c h w hh hw he
    exact dictPassWrites_header_not_skipped _ _ _ _ _ hw (he ▸ hh)

/-- C2 witness: a zone-role header really is suppressed.  With the zone role
resolving "Zone Cd", the dictionary pass of map_wms_row writes nothing for
that header. -/
theorem c2_classification_headers_suppressed_witness :
    "Zone Cd" ∈ wmsSkipCols [("Zone Cd", PVal.str "F")]
      (some { zone_col := some "Zone Cd" }) ∧
    ∀ w ∈ wmsDictWrites [("Zone Cd", PVal.str "F")]
      (some { zone_col := some "Zone Cd" }), w.header ≠ "Zone Cd" := by
  refine ⟨by decide, ?_⟩
  intro w hw
  exact c2_classification_headers_suppressed.1 _ _ _ w (by decide) hw

/-- C1 (code_bug): ingest_new.ingest_source does NOT drop a normalized row
whose mapped record lacks an item/material code — the skip is disabled in the
source ("TEMPORARILY DISABLE SKIP FOR DEBUGGING"), so the row is kept, still
without any item code; the older ingest.ingest_source does drop it. -/
theorem c1_ingest_new_keeps_rows_without_item_code :
    lacksItemCode (map_wms_row c1row (some c1cfg)) = true ∧
    (ingestNewRowsToInsert "wms" c1cfg none "s1" "b1" "t1" [c1row]).length = 1 ∧
    (ingestNewRowsToInsert "wms" c1cfg none "s1" "b1" "t1" [c1row]).map
      (fun r => (rowGetD r "item_code" .none, rowGetD r "material" .none)) =
      [(.none, .none)] ∧
    ingestOldKept "wms" c1cfg none [c1row] = [] :=
  ⟨rfl, rfl, rfl, rfl⟩

/-- C4 counterexample: with a failing cache write, update_current_quantities
still returns normally (the claim would require it to raise the failure). -/
theorem c4_authoritative_swallows_save_failure :
    update_current_quantities emptyDb [] false [] = .ok none ∧
    (Except.ok none : Except ZErr (Option CacheData)) ≠
      .error ZErr.saveError := by
  refine ⟨rfl, by simp⟩

/-- C4 (corrected): a failing cache-file write is raised to the caller by
update_zone_capacities and update_current_quantities_fast, but
update_current_quantities catches every exception (its `except` clause does
not re-raise), so that call never raises anything. -/
theorem c4_save_failure_propagation :
    (∀ (zones : List ZoneRow) (now : Nat) (existing : CacheData),
      update_zone_capacities zones now false existing = .error ZErr.saveError) ∧
    (∀ (now : Nat) (existing : CacheData) (d : CacheData),
      update_current_quantities_fast now false existing ≠ .ok d) ∧
    (∀ (db : WarehouseDB) (whc : List String) (saveOk : Bool)
      (existing : CacheData) (e : ZErr),
      update_current_quantities db whc saveOk existing ≠ .error e) := by
  refine ⟨?_, ?_, ?_⟩
  · intro zones now existing
    simp [update_zone_capacities, saveCapacities]
  · intro now existing d h
    simp only [update_current_quantities_fast] at h
    rcases hm : fastMapZones now existing with e | u <;> rw [hm] at h
    · exact Except.noConfusion h
    · simp [saveCapacities] at h
  · intro db whc saveOk existing e
    simp only [update_current_quantities]
    rcases existing with _ | ⟨p, rest⟩
    · rcases saveOk with _ | _ <;> simp [saveCapacities]
    · simp

/-! ### C6: cache lookup lemmas and the frame theorem -/

theorem cacheGet_set_self (k : String) (e : ZoneEntry) :
    ∀ d : CacheData, cacheGet (cacheSet d k e) k = some e := by
  intro d
  induction d with
  | nil => simp [cacheSet, cacheGet, List.find?]
  | cons p rest ih =>
    by_cases h : p.1 = k
    · simp [cacheSet, cacheGet, h, List.find?]
    · simpa [cacheSet, cacheGet, h, List.find?] using ih

theorem cacheGet_set_other (k k' : String) (e : ZoneEntry) (hk : k' ≠ k) :
    ∀ d : CacheData, cacheGet (cacheSet d k e) k' = cacheGet d k' := by
  have hkk : ¬(k = k') := fun hh => hk hh.symm
  intro d
  induction d with
  | nil => simp [cacheSet, cacheGet, List.find?, hkk]
  | cons p rest ih =>
    by_cases h : p.1 = k
    · have hp : ¬p.1 = k' := by rw [h]; exact hkk
      simp [cacheSet, cacheGet, h, hp, List.find?, hkk]
    · by_cases h' : p.1 = k'
      · rw [show cacheSet (p :: rest) k e = p :: cacheSet rest k e from by
          simp [cacheSet, h]]
        simp [cacheGet, List.find?, h']
      · simpa [cacheSet, cacheGet, h, h', List.find?] using ih

theorem cacheGet_filterMem (ids : List String) (k : String) :
    ∀ d : CacheData,
      cacheGet (d.filter (fun p => decide (p.1 ∈ ids))) k =
        if k ∈ ids then cacheGet d k else none := by
  intro d
  induction d with
  | nil => by_cases hk : k ∈ ids <;> simp [cacheGet, hk]
  | cons p rest ih =>
    rw [List.filter_cons]
    by_cases hm : p.1 ∈ ids
    · by_cases hk : p.1 = k
      · subst hk
        simp [cacheGet, List.find?, hm]
      · rw [if_pos (by simpa using hm)]
        simpa [cacheGet, List.find?, hk] using ih
    · by_cases hk : p.1 = k
      · subst hk
        rw [if_neg (by simpa using hm)]
        rw [ih]
        simp [hm]
      · rw [if_neg (by simpa using hm)]
        rw [ih]
        by_cases hkm : k ∈ ids
        · rw [if_pos hkm, if_pos hkm]
          simp [cacheGet, List.find?, hk]
        · rw [if_neg hkm, if_neg hkm]

/-- The per-zone refresh leaves an existing current_stock (and with it the
utilization field) untouched. -/
theorem uzcUpdateEntry_preserves (now : Nat) (zone : ZoneRow) (e : ZoneEntry)
    (cs : Nat) (h : e.current_stock = some cs) :
    (uzcUpdateEntry now zone e).current_stock = some cs ∧
    (uzcUpdateEntry now zone e).utilization_percentage =
      e.utilization_percentage := by
  simp [uzcUpdateEntry, h]

/-- The refresh fold of update_zone_capacities preserves live-state fields of
every entry that carries a current_stock value. -/
theorem uzcFold_preserves (now : Nat) (zones : List ZoneRow) :
    ∀ (d : CacheData) (zid : String) (e : ZoneEntry) (cs : Nat),
      cacheGet d zid = some e → e.current_stock = some cs →
      ∃ e', cacheGet (zones.foldl (fun d zone => cacheSet d zone.id
          (uzcUpdateEntry now zone ((cacheGet d zone.id).getD {}))) d) zid =
            some e' ∧
        e'.current_stock = some cs ∧
        e'.utilization_percentage = e.utilization_percentage := by
  induction zones with
  | nil => intro d zid e cs hg hcs; exact ⟨e, hg, hcs, rfl⟩
  | cons z zs ih =>
    intro d zid e cs hg hcs
    simp only [List.foldl_cons]
    by_cases hz : zid = z.id
    · have hbase : (cacheGet d z.id).getD {} = e := by rw [← hz, hg]; rfl
      have hne := uzcUpdateEntry_preserves now z e cs hcs
      have hget : cacheGet (cacheSet d z.id (uzcUpdateEntry now z
          ((cacheGet d z.id).getD {}))) zid = some (uzcUpdateEntry now z e) := by
        rw [hbase, hz]
        exact cacheGet_set_self z.id _ d
      obtain ⟨e', hg', hcs', hu'⟩ := ih _ zid _ cs hget hne.1
      exact ⟨e', hg', hcs', hu'.trans hne.2⟩
    · have hget : cacheGet (cacheSet d z.id (uzcUpdateEntry now z
          ((cacheGet d z.id).getD {}))) zid = some e := by
        rw [cacheGet_set_other z.id zid _ hz d]
        exact hg
      exact ih _ zid e cs hget hcs

/-- C6 (confirmed): whenever update_zone_capacities succeeds, an entry present
before and after the call keeps its current_stock (when it had one) and its
utilization_percentage unchanged, and any cached zone missing from the
upstream layout result is removed. -/
theorem c6_update_zone_capacities_frame :
    ∀ (zones : List ZoneRow) (now : Nat) (saveOk : Bool)
      (existing d' : CacheData),
      update_zone_capacities zones now saveOk existing = .ok d' →
      (∀ (zid : String) (e e' : ZoneEntry) (cs : Nat),
        cacheGet existing zid = some e → e.current_stock = some cs →
        cacheGet d' zid = some e' →
        e'.current_stock = some cs ∧
        e'.utilization_percentage = e.utilization_percentage) ∧
      (∀ zid : String,
        zid ∉ zones.map (fun z => z.id) → cacheGet d' zid = none) := by
  intro zones now saveOk existing d' h
  rcases saveOk with _ | _
  · exact absurd h (by simp [update_zone_capacities, saveCapacities])
  · have hd : d' = (zones.foldl (fun d zone => cacheSet d zone.id
        (uzcUpdateEntry now zone ((cacheGet d zone.id).getD {}))) existing).filter
        (fun p => decide (p.1 ∈ zones.map (fun z => z.id))) := by
      simpa [update_zone_capacities, saveCapacities] using h.symm
    constructor
    · intro zid e e' cs hg hcs hg'
      obtain ⟨e'', hg'', hcs'', hu''⟩ :=
        uzcFold_preserves now zones existing zid e cs hg hcs
      rw [hd, cacheGet_filterMem] at hg'
      by_cases hmem : zid ∈ zones.map (fun z => z.id)
      · rw [if_pos hmem, hg''] at hg'
        obtain rfl : e'' = e' := by injection hg'
        exact ⟨hcs'', hu''⟩
      · rw [if_neg hmem] at hg'
        exact absurd hg' (by simp)
    · intro zid hmem
      rw [hd, cacheGet_filterMem, if_neg hmem]

/-- C6 witness: the frame theorem at a concrete one-zone refresh — z1 keeps
current_stock 5 and utilization 25, z2 (gone upstream) is removed. -/
theorem c6_update_zone_capacities_frame_witness :
    update_zone_capacities [c6zone] 7 true c6existing = .ok c6out ∧
    (c6outEntry.current_stock = some 5 ∧
     c6outEntry.utilization_percentage = some 25) ∧
    cacheGet c6out "z2" = none := by
  have h := c6_update_zone_capacities_frame [c6zone] 7 true c6existing c6out rfl
  have h1 := h.1 "z1"
    { current_stock := some 5, utilization_percentage := some 25 }
    c6outEntry 5 rfl rfl rfl
  exact ⟨rfl, ⟨h1.1, h1.2⟩, h.2 "z2" (by decide)⟩

/-! ### C10: null component capacity versus the fast path -/

theorem fastProcessComp_err (c : Component) (h : compMaxCapGet c = none) :
    fastProcessComp c = .error .typeError := by
  simp [fastProcessComp, h]

theorem fastProcessComp_err_only (c : Component) (e : ZErr)
    (h : fastProcessComp c = .error e) : e = .typeError := by
  rcases hm : compMaxCapGet c with _ | v
  · rw [fastProcessComp_err c hm] at h
    injection h with h
    exact h.symm
  · by_cases hv : 0 < v <;> simp [fastProcessComp, hm, hv] at h

theorem fastProcessComps_err_only (cs : List Component) (e : ZErr)
    (h : fastProcessComps cs = .error e) : e = .typeError := by
  induction cs with
  | nil => simp [fastProcessComps] at h
  | cons x xs ih =>
    rcases hx : fastProcessComp x with ex | c'
    · rw [fastProcessComps, hx] at h
      injection h with h
      rw [← h]
      exact fastProcessComp_err_only x ex hx
    · rw [fastProcessComps, hx] at h
      rcases hxs : fastProcessComps xs with exs | cs'
      · rw [hxs] at h
        injection h with h
        rw [h] at hxs
        exact ih hxs
      · rw [hxs] at h
        exact Except.noConfusion h

theorem fastProcessComps_err (cs : List Component) (c : Component)
    (hc : c ∈ cs) (h : compMaxCapGet c = none) :
    fastProcessComps cs = .error .typeError := by
  induction cs with
  | nil => exact absurd hc (List.not_mem_nil c)
  | cons x xs ih =>
    rcases List.mem_cons.mp hc with rfl | hmem
    · rw [fastProcessComps, fastProcessComp_err c h]
    · rcases hx : fastProcessComp x with ex | c'
      · rw [fastProcessComps, hx, fastProcessComp_err_only x ex hx]
      · rw [fastProcessComps, hx, ih hmem]

theorem fastProcessZone_err (now : Nat) (e : ZoneEntry) (c : Component)
    (hc : c ∈ e.components.getD []) (h : compMaxCapGet c = none) :
    fastProcessZone now e = .error .typeError := by
  rw [fastProcessZone, fastProcessComps_err _ c hc h]

theorem fastProcessZone_err_only (now : Nat) (e : ZoneEntry) (err : ZErr)
    (h : fastProcessZone now e = .error err) : err = .typeError := by
  rcases hx : fastProcessComps (e.components.getD []) with e' | cs'
  · rw [fastProcessZone, hx] at h
    injection h with h
    rw [← h]
    exact fastProcessComps_err_only _ e' hx
  · rw [fastProcessZone, hx] at h
    exact Except.noConfusion h

theorem fastMapZones_err (now : Nat) (existing : CacheData) (zid : String)
    (e : ZoneEntry) (c : Component) (hz : (zid, e) ∈ existing)
    (hc : c ∈ e.components.getD []) (h : compMaxCapGet c = none) :
    fastMapZones now existing = .error .typeError := by
  induction existing with
  | nil => exact absurd hz (List.not_mem_nil _)
  | cons p rest ih =>
    rcases List.mem_cons.mp hz with rfl | hmem
    · rw [fastMapZones, fastProcessZone_err now e c hc h]
    · obtain ⟨k1, e1⟩ := p
      rcases hx : fastProcessZone now e1 with ex | e1'
      · rw [fastMapZones, hx, fastProcessZone_err_only now e1 ex hx]
      · rw [fastMapZones, hx, ih hmem]

/-- C10 (confirmed): a component whose stored max_capacity is 0 gets
utilization_percentage 0.0 from the fast path, but update_zone_capacities
persists a flat layout item lacking max_capacity as a component whose
max_capacity key holds null, and on any cache containing such a component
the whole update_current_quantities_fast call fails with the TypeError from
comparing None with 0. -/
theorem c10_null_component_capacity_fails_fast_path :
    (∀ c : Component, compMaxCapGet c = some 0 →
      fastProcessComp c = .ok { c with
        current_stock := some ((c.materials.getD []).length),
        utilization_percentage := some 0 }) ∧
    (∀ item : LayoutItem, item.itype = "flat" → item.max_capacity = none →
      (buildComponent item).max_capacity = some none ∧
      compMaxCapGet (buildComponent item) = none) ∧
    (∀ (now : Nat) (saveOk : Bool) (existing : CacheData) (zid : String)
      (e : ZoneEntry) (c : Component),
      (zid, e) ∈ existing → c ∈ e.components.getD [] →
      compMaxCapGet c = none →
      update_current_quantities_fast now saveOk existing =
        .error ZErr.typeError) := by
  refine ⟨?_, ?_, ?_⟩
  · intro c h
    simp [fastProcessComp, h]
  · intro item hflat hmc
    have hr : item.itype ≠ "rack" := by rw [hflat]; decide
    constructor
    · simp [buildComponent, hr, hmc]
    · simp [compMaxCapGet, buildComponent, hr, hmc]
  · intro now saveOk existing zid e c hz hc h
    rw [update_current_quantities_fast,
      fastMapZones_err now existing zid e c hz hc h]

/-- C10 witness: the flat item without max_capacity, persisted by
buildComponent into c10cache, makes the fast path raise; and a zero-capacity
component gets utilization 0. -/
theorem c10_null_component_capacity_fails_fast_path_witness :
    update_current_quantities_fast 3 true c10cache = .error ZErr.typeError ∧
    compMaxCapGet c10comp = none ∧
    fastProcessComp c10zeroComp = .ok { c10zeroComp with
      current_stock := some 0, utilization_percentage := some 0 } := by
  refine ⟨?_, rfl, ?_⟩
  · exact c10_null_component_capacity_fails_fast_path.2.2 3 true c10cache
      "z1" { components := some [c10comp] } c10comp (by decide)
      (by decide) rfl
  · have h := c10_null_component_capacity_fails_fast_path.1 c10zeroComp rfl
    exact h

/-! ### C9/C3: lemmas on the display projection -/

theorem effLotKey_canon (m : Material) :
    effLotKey (canonMaterial m) = effLotKey m := by
  rcases hm : m.lot_key with _ | s
  · simp [canonMaterial, effLotKey, hm]
  · by_cases h : s = "" ∨ s = "NO_LOT"
    · rcases h with h | h <;> simp [canonMaterial, effLotKey, hm, h]
    · push_neg at h
      simp [canonMaterial, effLotKey, hm, h.1, h.2]

theorem matQty_canon (m : Material) : matQty (canonMaterial m) = matQty m := by
  simp [canonMaterial, matQty]

theorem matItem_canon (m : Material) : matItem (canonMaterial m) = matItem m := by
  simp [canonMaterial, matItem]

theorem lotCountsAux_canon (ms : List Material) :
    ∀ acc, (ms.map canonMaterial).foldl
        (fun c m => bumpCount c (effLotKey m) (matQty m)) acc =
      ms.foldl (fun c m => bumpCount c (effLotKey m) (matQty m)) acc := by
  induction ms with
  | nil => intro acc; rfl
  | cons m rest ih =>
    intro acc
    simp only [List.map_cons, List.foldl_cons, effLotKey_canon, matQty_canon]
    exact ih _

theorem materialCountsAux_canon (ms : List Material) :
    ∀ acc, (ms.map canonMaterial).foldl
        (fun c m => if matItem m ≠ "" then bumpCount c (matItem m) (matQty m)
          else c) acc =
      ms.foldl (fun c m => if matItem m ≠ "" then bumpCount c (matItem m)
          (matQty m) else c) acc := by
  induction ms with
  | nil => intro acc; rfl
  | cons m rest ih =>
    intro acc
    simp only [List.map_cons, List.foldl_cons, matItem_canon, matQty_canon]
    exact ih _

theorem materialLotsAux_canon (ms : List Material) :
    ∀ acc, (ms.map canonMaterial).foldl
        (fun c m => if matItem m ≠ "" then addLot c (matItem m) (effLotKey m)
          else c) acc =
      ms.foldl (fun c m => if matItem m ≠ "" then addLot c (matItem m)
          (effLotKey m) else c) acc := by
  induction ms with
  | nil => intro acc; rfl
  | cons m rest ih =>
    intro acc
    simp only [List.map_cons, List.foldl_cons, matItem_canon, effLotKey_canon]
    exact ih _

theorem lotDistribution_canon (ms : List Material) :
    lotDistribution (ms.map canonMaterial) = lotDistribution ms := by
  unfold lotDistribution lotDistributionUnsorted lotCounts
  rw [lotCountsAux_canon, List.length_map]

theorem materialsSummary_canon (ms : List Material) :
    materialsSummary (ms.map canonMaterial) = materialsSummary ms := by
  unfold materialsSummary materialsSummaryUnsorted materialCounts materialLots
  rw [materialCountsAux_canon, materialLotsAux_canon]

/-- Keys entering a counting dict satisfy any property their inserted key
does. -/
theorem bumpCount_keys_prop (P : String → Prop) (acc : List (String × Rat))
    (k : String) (q : Rat) (hacc : ∀ p ∈ acc, P p.1) (hk : P k) :
    ∀ p ∈ bumpCount acc k q, P p.1 := by
  induction acc with
  | nil =>
    intro p hp
    rw [List.mem_singleton.mp hp]
    exact hk
  | cons p0 rest ih =>
    intro p hp
    rw [bumpCount] at hp
    by_cases h0 : p0.1 = k
    · rw [if_pos h0] at hp
      rcases List.mem_cons.mp hp with rfl | hmem
      · exact hacc p0 (List.mem_cons_self _ _)
      · exact hacc p (List.mem_cons_of_mem _ hmem)
    · rw [if_neg h0] at hp
      rcases List.mem_cons.mp hp with rfl | hmem
      · exact hacc p (List.mem_cons_self _ _)
      · exact ih (fun p' hp' => hacc p' (List.mem_cons_of_mem _ hp')) p hmem

theorem effLotKey_ne_empty (m : Material) : effLotKey m ≠ "" := by
  rcases hm : m.lot_key with _ | s
  · simp [effLotKey, hm]
  · by_cases h : s = "" <;> simp [effLotKey, hm, h]

theorem lotCounts_keys_ne_empty (ms : List Material) :
    ∀ (acc : List (String × Rat)), (∀ p ∈ acc, p.1 ≠ "") →
      ∀ p ∈ ms.foldl (fun c m => bumpCount c (effLotKey m) (matQty m)) acc,
        p.1 ≠ "" := by
  induction ms with
  | nil => intro acc hacc; exact hacc
  | cons m rest ih =>
    intro acc hacc
    simp only [List.foldl_cons]
    exact ih _ (bumpCount_keys_prop (fun s => s ≠ "") acc (effLotKey m)
      (matQty m) hacc (effLotKey_ne_empty m))

/-- C9 (confirmed): both recomputation paths cannot distinguish a lot key
that is literally 'NO_LOT' (or empty) from an absent one — canonicalising
such keys to null leaves lot_distribution and materials_summary unchanged,
every lot_distribution entry reports such buckets with a null lot key, and
'NO_LOT' never appears in a materials_summary lots list. -/
theorem c9_no_lot_sentinel_merged :
    (∀ ms : List Material,
      lotDistribution (ms.map canonMaterial) = lotDistribution ms ∧
      materialsSummary (ms.map canonMaterial) = materialsSummary ms) ∧
    (∀ (ms : List Material) (e : LotEntry), e ∈ lotDistribution ms →
      e.lot_key ≠ some "NO_LOT" ∧ e.lot_key ≠ some "") ∧
    (∀ (ms : List Material) (s : SummaryEntry), s ∈ materialsSummary ms →
      "NO_LOT" ∉ s.lots) := by
  refine ⟨fun ms => ⟨lotDistribution_canon ms, materialsSummary_canon ms⟩,
    ?_, ?_⟩
  · intro ms e he
    have he' : e ∈ lotDistributionUnsorted ms :=
      (List.mem_insertionSort lotGE).mp he
    obtain ⟨p, hp, hpe⟩ := List.mem_map.mp he'
    have hk : p.1 ≠ "" := lotCounts_keys_ne_empty ms [] (by simp) p hp
    by_cases hno : p.1 = "NO_LOT"
    · rw [← hpe]
      simp [hno]
    · rw [← hpe]
      simp only [if_neg hno]
      constructor
      · intro hc
        exact hno (by injection hc)
      · intro hc
        exact hk (by injection hc)
  · intro ms s hs
    have hs' : s ∈ materialsSummaryUnsorted ms :=
      (List.mem_insertionSort sumGE).mp hs
    obtain ⟨p, _, hpe⟩ := List.mem_map.mp hs'
    rw [← hpe]
    intro hmem
    have := (List.mem_filter.mp hmem).2
    simp at this

/-- Concrete evaluation of the display's lot distribution for c3ms. -/
theorem lotDistribution_c3ms_eval :
    lotDistribution c3ms = [⟨some "L", (10 : Rat), (1000 : Rat)⟩] := by
  have h1000 : round1 ((10 : Rat) * 100) = 1000 := by
    have h : (10 : Rat) * 100 * 10 = ((10000 : Int) : Rat) := by
      norm_num
    rw [round1, h, roundHalfEven_intCast]
    norm_num
  simp +decide [lotDistribution, lotDistributionUnsorted, lotCounts,
    bumpCount, matQty, effLotKey, c3ms, List.insertionSort,
    List.orderedInsert]
  exact h1000

/-- C9 witness: the theorem's parts applied at concrete material lists — the
c9ms list (with 'NO_LOT', '' and a genuine lot), the c3ms entry, and the
"A" summary entry of c9ms whose 'NO_LOT' lot was dropped. -/
theorem c9_no_lot_sentinel_merged_witness :
    (lotDistribution (c9ms.map canonMaterial) = lotDistribution c9ms ∧
     materialsSummary (c9ms.map canonMaterial) = materialsSummary c9ms) ∧
    ((⟨some "L", (10 : Rat), (1000 : Rat)⟩ : LotEntry).lot_key ≠
      some "NO_LOT") ∧
    "NO_LOT" ∉ (⟨"A", (5 : Rat), []⟩ : SummaryEntry).lots := by
  refine ⟨c9_no_lot_sentinel_merged.1 c9ms, ?_, ?_⟩
  · exact (c9_no_lot_sentinel_merged.2.1 c3ms _
      (lotDistribution_c3ms_eval ▸ List.mem_singleton.mpr rfl)).1
  · have hms : materialsSummary c9ms =
        [⟨"A", (5 : Rat), []⟩, ⟨"B", (4 : Rat), ["L1"]⟩] := by
      simp +decide [materialsSummary, materialsSummaryUnsorted, materialCounts,
        materialLots, bumpCount, addLot, matItem, matQty, effLotKey, c9ms,
        List.insertionSort, List.orderedInsert, sumGE]
      norm_num
    exact c9_no_lot_sentinel_merged.2.2 c9ms _
      (hms ▸ List.mem_cons_self _ _)

/-! ### C3: lot-distribution quantities, percentages and order -/

theorem countVal_bump (k k' : String) (q : Rat) :
    ∀ acc, countVal (bumpCount acc k' q) k =
      countVal acc k + (if k = k' then q else 0) := by
  intro acc
  induction acc with
  | nil =>
    by_cases h : k = k'
    · subst h
      simp [bumpCount, countVal, List.find?]
    · have h' : ¬(k' = k) := fun hh => h hh.symm
      simp [bumpCount, countVal, List.find?, h, h']
  | cons p rest ih =>
    rw [bumpCount]
    by_cases hp : p.1 = k'
    · rw [if_pos hp]
      by_cases hk : p.1 = k
      · have : k = k' := by rw [← hk, hp]
        simp [countVal, List.find?, hk, this]
      · have : ¬(k = k') := fun hh => hk (by rw [hp, hh])
        simp [countVal, List.find?, hk, this]
    · rw [if_neg hp]
      by_cases hk : p.1 = k
      · have : ¬(k = k') := fun hh => hp (by rw [hk, hh])
        simp [countVal, List.find?, hk, this]
      · simpa [countVal, List.find?, hk] using ih

theorem bumpCount_nodup (k : String) (q : Rat) :
    ∀ acc : List (String × Rat),
      (acc.map (fun p => p.1)).Nodup →
      ((bumpCount acc k q).map (fun p => p.1)).Nodup := by
  intro acc
  induction acc with
  | nil => intro _; exact List.nodup_singleton k
  | cons p rest ih =>
    intro hn
    rw [List.map_cons, List.nodup_cons] at hn
    rw [bumpCount]
    by_cases hp : p.1 = k
    · rw [if_pos hp]
      rw [List.map_cons, List.nodup_cons]
      exact ⟨hn.1, hn.2⟩
    · rw [if_neg hp]
      rw [List.map_cons, List.nodup_cons]
      refine ⟨?_, ih hn.2⟩
      intro hmem
      obtain ⟨p', hp', he⟩ := List.mem_map.mp hmem
      have := bumpCount_keys_prop
        (fun s => s = k ∨ s ∈ rest.map (fun p => p.1)) rest k q
        (fun p'' hp'' => Or.inr (List.mem_map_of_mem _ hp''))
        (Or.inl rfl) p' hp'
      rcases this with h1 | h1
      · exact hp (he ▸ h1)
      · rw [he] at h1
        exact hn.1 h1

theorem countVal_of_mem (k : String) (q : Rat) :
    ∀ acc : List (String × Rat),
      (acc.map (fun p => p.1)).Nodup → (k, q) ∈ acc →
      countVal acc k = q := by
  intro acc
  induction acc with
  | nil => intro _ h; exact absurd h (List.not_mem_nil _)
  | cons p rest ih =>
    intro hn hm
    rw [List.map_cons, List.nodup_cons] at hn
    rcases List.mem_cons.mp hm with rfl | hmem
    · simp [countVal, List.find?]
    · have hk : ¬p.1 = k := by
        intro hh
        exact hn.1 (hh ▸ List.mem_map_of_mem (fun p => p.1) hmem)
      simpa [countVal, List.find?, hk] using ih hn.2 hmem

theorem bucketQty_cons (m : Material) (rest : List Material) (k : String) :
    bucketQty (m :: rest) k =
      (if effLotKey m = k then matQty m else 0) + bucketQty rest k := by
  by_cases h : effLotKey m = k <;> simp [bucketQty, List.filter_cons, h]

theorem lotCountsAux_countVal (k : String) :
    ∀ (ms : List Material) (acc : List (String × Rat)),
      countVal (ms.foldl (fun c m => bumpCount c (effLotKey m) (matQty m)) acc)
          k =
        countVal acc k + bucketQty ms k := by
  intro ms
  induction ms with
  | nil => intro acc; simp [bucketQty]
  | cons m rest ih =>
    intro acc
    rw [List.foldl_cons, ih, countVal_bump, bucketQty_cons]
    by_cases h : effLotKey m = k
    · rw [if_pos h, if_pos h.symm]
      ring
    · rw [if_neg h, if_neg (fun hh => h hh.symm)]
      ring

theorem lotCountsAux_nodup :
    ∀ (ms : List Material) (acc : List (String × Rat)),
      (acc.map (fun p => p.1)).Nodup →
      ((ms.foldl (fun c m => bumpCount c (effLotKey m) (matQty m)) acc).map
        (fun p => p.1)).Nodup := by
  intro ms
  induction ms with
  | nil => intro acc h; exact h
  | cons m rest ih =>
    intro acc h
    rw [List.foldl_cons]
    exact ih _ (bumpCount_nodup _ _ acc h)

/-- Every entry of the lot_counts dict holds the summed quantity of its
bucket. -/
theorem lotCounts_value (ms : List Material) (k : String) (q : Rat)
    (h : (k, q) ∈ lotCounts ms) : q = bucketQty ms k := by
  have hn := lotCountsAux_nodup ms [] (by simp)
  have h1 := countVal_of_mem k q _ hn h
  have h2 := lotCountsAux_countVal k ms []
  rw [h1] at h2
  simpa [countVal, List.find?] using h2

/-- C3 counterexample: for one material of quantity 10, the stored percentage
is 1000 (the code divides by the entry count), while the claim's formula —
bucket quantity over the zone's summed quantity, times 100 — gives 100. -/
theorem c3_percentage_counterexample :
    lotDistribution c3ms = [⟨some "L", (10 : Rat), (1000 : Rat)⟩] ∧
    (c3ms.map matQty).sum = 10 ∧
    bucketQty c3ms "L" / (c3ms.map matQty).sum * 100 = 100 ∧
    (1000 : Rat) ≠ 100 := by
  refine ⟨lotDistribution_c3ms_eval, ?_, ?_, by norm_num⟩
  · simp [c3ms, matQty]
  · simp [bucketQty, c3ms, matQty, effLotKey]

/-- C3 (corrected): for a zone with a non-empty material list, every
lot_distribution entry of the cached display projection carries its bucket's
summed quantity, and a percentage equal to that quantity divided by the
number of material entries (len(zone_materials), not the summed quantity),
times 100, rounded half-to-even to one decimal; entries are ordered
descending by quantity. -/
theorem c3_lot_distribution_amended :
    ∀ ms : List Material, ms ≠ [] →
      (∀ e ∈ lotDistribution ms,
        e.quantity = bucketQty ms (entryBucket e) ∧
        e.percentage = round1 (e.quantity / (ms.length : Rat) * 100)) ∧
      List.Sorted lotGE (lotDistribution ms) := by
  intro ms hms
  refine ⟨?_, List.sorted_insertionSort lotGE _⟩
  intro e he
  have he' := (List.mem_insertionSort lotGE).mp he
  obtain ⟨p, hp, hpe⟩ := List.mem_map.mp he'
  have hq : p.2 = bucketQty ms p.1 := lotCounts_value ms p.1 p.2 hp
  have hlen : 0 < ms.length := List.length_pos.mpr hms
  have hbucket : entryBucket e = p.1 := by
    rw [← hpe]
    by_cases h : p.1 = "NO_LOT" <;> simp [entryBucket, h]
  constructor
  · rw [hbucket, ← hpe]
    exact hq
  · rw [← hpe]
    simp [hlen]

/-- C3 witness: the amended theorem at the one-material zone — its single
entry holds quantity 10 = the bucket sum, percentage 1000, and the list is
sorted. -/
theorem c3_lot_distribution_amended_witness :
    ((⟨some "L", (10 : Rat), (1000 : Rat)⟩ : LotEntry).quantity =
      bucketQty c3ms
        (entryBucket ⟨some "L", (10 : Rat), (1000 : Rat)⟩) ∧
     (⟨some "L", (10 : Rat), (1000 : Rat)⟩ : LotEntry).percentage =
      round1 ((⟨some "L", (10 : Rat), (1000 : Rat)⟩ : LotEntry).quantity /
        (c3ms.length : Rat) * 100)) ∧
    List.Sorted lotGE (lotDistribution c3ms) := by
  have h := c3_lot_distribution_amended c3ms (by decide)
  exact ⟨h.1 _ (lotDistribution_c3ms_eval ▸ List.mem_singleton.mpr rfl), h.2⟩

end SDS
